import Mathlib

/-!
Shallow embedding of the clamdpy client library (clamd protocol client).

Strings from the Python source are modelled as `List Char`; bytes as `Nat`
(values < 256).  Each definition is translated from the corresponding
function in `src/clamdpy/sockets.py`, `src/clamdpy/models.py` or
`src/clamdpy/exceptions.py`; doc comments name the Python symbol embedded.
-/

deriving instance DecidableEq for Except

namespace Clamdpy

/-- Abbreviation turning a Lean string literal into the `List Char` model. -/
def s2l (s : String) : List Char := s.data

/-- The `line_terminator` constructor argument: the literal `"n"` or `"z"`. -/
inductive LineTerminator
  | n
  | z
deriving DecidableEq, Repr

/-- The character the `line_terminator` mode letter itself denotes:
`'n'` or `'z'` (the string `self.line_terminator` used as the command
prefix in `ClamdNetworkSocket._send`). -/
def lineTerminatorChar : LineTerminator → Char
  | .n => 'n'
  | .z => 'z'

/-- Models the `ClamdNetworkSocket._endline` property: `"\n"` for mode `"n"`
and the NUL character for mode `"z"`. -/
def endline : LineTerminator → Char
  | .n => '\n'
  | .z => Char.ofNat 0

/-- Models `" ".join(args)` from Python (`str.join` with a single-space
separator). -/
def joinSpace : List (List Char) → List Char
  | [] => []
  | [a] => a
  | a :: b :: rest => a ++ ' ' :: joinSpace (b :: rest)

/-- Models the string built by `ClamdNetworkSocket._send`:
`cmd = f"{self.line_terminator}{command}"`, then
`if args: cmd += f" {' '.join(args)}"`, then `cmd += self._endline`. -/
def sendFrame (lt : LineTerminator) (command : List Char)
    (args : List (List Char)) : List Char :=
  lineTerminatorChar lt ::
    (command ++ (if args = [] then [] else ' ' :: joinSpace args) ++
      [endline lt])

/-- Models `str.encode("utf-8")`: the UTF-8 byte sequence of a character
list, each byte as a `Nat` below 256. -/
def utf8Bytes (l : List Char) : List Nat :=
  (l.flatMap String.utf8EncodeChar).map UInt8.toNat

/-- The frame shape the specification describes:
`<terminator><VERB>[ args...]<terminator>` with the terminator character
itself (newline or NUL) at both ends.  This definition follows the spec's
words and exists to be compared with `sendFrame`, which follows the code. -/
def specFrame (lt : LineTerminator) (command : List Char)
    (args : List (List Char)) : List Char :=
  endline lt ::
    (command ++ (if args = [] then [] else ' ' :: joinSpace args) ++
      [endline lt])

/-- Models Python `str.strip(chars)` specialised to a predicate: drop
matching characters from both ends. -/
def stripWhile (p : Char → Bool) (l : List Char) : List Char :=
  ((l.dropWhile p).reverse.dropWhile p).reverse

/-- Models `str.strip(c)` for a single-character argument, as used in
`ClamdNetworkSocket._recv`: `.strip(self._endline)`. -/
def stripChar (c : Char) (l : List Char) : List Char :=
  stripWhile (fun x => x == c) l

/-- The ASCII whitespace characters Python's no-argument `str.strip()`
removes (space, tab, newline, carriage return, vertical tab, form feed). -/
def isPySpace (c : Char) : Bool :=
  c == ' ' || c == '\t' || c == '\n' || c == '\r' ||
    c == Char.ofNat 11 || c == Char.ofNat 12

/-- Models no-argument `str.strip()` (used on the text before `"ERROR"`). -/
def stripWs (l : List Char) : List Char :=
  stripWhile isPySpace l

/-- The module-level constant `UNKNOWN_COMMAND` of `sockets.py`. -/
def UNKNOWN_COMMAND : List Char := s2l "UNKNOWN COMMAND"

/-- The module-level constant `COMMAND_READ_TIMED_OUT` of `sockets.py`. -/
def COMMAND_READ_TIMED_OUT : List Char := s2l "COMMAND READ TIMED OUT"

/-- The literal `"ERROR"` token used by `str.rsplit("ERROR", 1)`. -/
def ERRORs : List Char := s2l "ERROR"

/-- Python `sep in s` for strings: some suffix of `s` starts with `sep`. -/
def containsSubstr (sep s : List Char) : Bool :=
  (List.range (s.length + 1)).any fun i => sep.isPrefixOf (s.drop i)

/-- The index of the last occurrence of `sep` in `s` (the split point of
Python `s.rsplit(sep, 1)`), if `sep` occurs at all. -/
def lastSplitIndex (sep s : List Char) : Option Nat :=
  (List.range (s.length + 1)).reverse.find? fun i => sep.isPrefixOf (s.drop i)

/-- Models `s.rsplit(sep, 1)[0]`: the text before the last occurrence of
`sep`, or all of `s` when `sep` does not occur. -/
def rsplitBefore (sep s : List Char) : List Char :=
  match lastSplitIndex sep s with
  | some i => s.take i
  | none => s

/-- The exceptions raised by the reply-handling code
(`exceptions.py`): `UnknownCommand`, `CommandReadTimedOut`,
`ResponseError` and its subclass `BufferTooLongError` (which always
carries the command `"INSTREAM"`). -/
inductive ClamdExc
  | unknownCommand (command : List Char)
  | commandReadTimedOut (command : List Char)
  | responseError (command : List Char) (error : List Char)
  | bufferTooLong (error : List Char)
deriving DecidableEq, Repr

/-- Models the reply classification in `ClamdNetworkSocket._command` once
`recv` has been read: the two exact sentinel checks, then (when
`raise_on_error`) `recv.rsplit("ERROR", 1)` — more than one segment means
the token occurs, and segment 0 (the text before the last occurrence) is
stripped and carried by `ResponseError`. -/
def commandClassify (command recv : List Char) (raiseOnError : Bool) :
    Except ClamdExc (List Char) :=
  if recv = UNKNOWN_COMMAND then .error (.unknownCommand command)
  else if recv = COMMAND_READ_TIMED_OUT then .error (.commandReadTimedOut command)
  else if raiseOnError then
    match lastSplitIndex ERRORs recv with
    | some i => .error (.responseError command (stripWs (recv.take i)))
    | none => .ok recv
  else .ok recv

/-- Split at the first occurrence of character `c`: returns the (c-free)
text before it and the text after it.  This is how the anchored pattern
`^[^:]*:` consumes input: the greedy colon-free group is forced to stop at
the first colon, and no backtracking can move the split. -/
def splitFirst (c : Char) : List Char → Option (List Char × List Char)
  | [] => none
  | x :: xs =>
    if x = c then some ([], xs)
    else (splitFirst c xs).map fun p => (x :: p.1, p.2)

/-- The status alternatives of `RESULT_REGEX`, in the pattern's order. -/
def STATUSES : List (List Char) := [s2l "FOUND", s2l "OK", s2l "ERROR"]

/-- Python's `$` (without `re.MULTILINE`): matches at the end of the
string, or just before a single trailing newline. -/
def tailOk (tail : List Char) : Bool :=
  tail = [] || tail = ['\n']

/-- Matches `(?P<status>(FOUND|OK|ERROR))$` against `u`: `u` must be one
of the three status words followed by a `$`-acceptable tail.  The words
start with distinct letters, so at most one alternative applies. -/
def statusTailMatch (u : List Char) : Option (List Char) :=
  STATUSES.find? fun st => st.isPrefixOf u && tailOk (u.drop st.length)

/-- Consumes one expected literal character. -/
def expectChar (c : Char) : List Char → Option (List Char)
  | x :: rest => if x = c then some rest else none
  | [] => none

/-- Matches `((?P<reason>.+) )?(?P<status>...)$` with the optional group
present, against the text `t` after `": "`.  The greedy `.+` tries the
longest reason first and cannot cross a newline; after it come a literal
space, a status word and `$`.  Returns the captured reason and status of
the first (longest-reason) successful split. -/
def findReasonSplit (t : List Char) : Option (List Char × List Char) :=
  ((List.range t.length).map fun j => t.length - j).findSome? fun k =>
    let reason := t.take k
    if '\n' ∈ reason then none
    else
      match t.drop k with
      | ' ' :: u => (statusTailMatch u).map fun st => (reason, st)
      | _ => none

/-- Models `RESULT_REGEX.match` for the pattern
`^(?P<path>[^:]*): ((?P<reason>.+) )?(?P<status>(FOUND|OK|ERROR))$` of
`models.py`: the path is the colon-free text before the first colon, a
literal `": "` must follow, then the optional greedy reason group and the
status alternation, anchored by `$`.  Returns the captured
`(path, reason, status)` groups on success. -/
def resultRegexMatch (s : List Char) :
    Option (List Char × Option (List Char) × List Char) :=
  match splitFirst ':' s with
  | none => none
  | some (path, rest) =>
    match expectChar ' ' rest with
    | none => none
    | some t =>
      match findReasonSplit t with
      | some (reason, st) => some (path, some reason, st)
      | none => (statusTailMatch t).map fun st => (path, none, st)

/-- The `path` field of `ScanResult`: a filesystem path or the literal
`"stream"` marker.  (`models.py` wraps the matched group in
`pathlib.Path`, which only normalises slash and dot components and never
introduces a colon; the raw matched group is kept here.) -/
inductive ScanPath
  | stream
  | path (p : List Char)
deriving DecidableEq, Repr

/-- The `ScanResult` named tuple of `models.py`. -/
structure ScanResult where
  path : ScanPath
  reason : Option (List Char)
  status : List Char
deriving DecidableEq, Repr

/-- Models `ScanResult._from_str`: match `RESULT_REGEX` against the line,
raising `ResponseError(command, f"Unable to match string: {string}")` when
it does not match, and building the tuple from the groups otherwise. -/
def ScanResult.fromStr (string command : List Char) (stream : Bool) :
    Except ClamdExc ScanResult :=
  match resultRegexMatch string with
  | none => .error (.responseError command (s2l "Unable to match string: " ++ string))
  | some (p, r, st) => .ok ⟨if stream then .stream else .path p, r, st⟩

/-- Models Python `str.split(sep)` for a one-character separator: split on
every occurrence, keeping empty pieces (`"".split(c) == [""]`). -/
def splitOnChar (c : Char) : List Char → List (List Char)
  | [] => [[]]
  | x :: xs =>
    if x = c then [] :: splitOnChar c xs
    else
      match splitOnChar c xs with
      | y :: ys => (x :: y) :: ys
      | [] => [[x]]

/-- Models the list comprehension in `ClamdNetworkSocket._any_scan`:
`[ScanResult._from_str(line, command) for line in result.split(...)]`
evaluates left to right and the first raising line aborts the whole call,
so either every line parses or the first failure's exception escapes. -/
def parseLines (command : List Char) :
    List (List Char) → Except ClamdExc (List ScanResult)
  | [] => .ok []
  | l :: rest =>
    match ScanResult.fromStr l command false with
    | .error e => .error e
    | .ok r =>
      match parseLines command rest with
      | .error e => .error e
      | .ok rs => .ok (r :: rs)

/-- The parsing step of `ClamdNetworkSocket._any_scan` (after `_command`
returned `result` with `raise_on_error=False`):
`result.split(self._endline)` parsed line by line. -/
def anyScanParse (lt : LineTerminator) (result command : List Char) :
    Except ClamdExc (List ScanResult) :=
  parseLines command (splitOnChar (endline lt) result)

/-- Models the `instream` reply handling: after the chunked upload,
`_recv` is read and then, before any `raw` dispatch, the reply is checked
for the substring `"INSTREAM size limit exceeded"` and turned into
`BufferTooLongError(result.rsplit("ERROR", 1)[0].strip())`; otherwise the
raw string is returned, or the line is parsed with
`ScanResult._from_str(result, "INSTREAM", stream=True)`. -/
inductive InstreamResult
  | raw (s : List Char)
  | parsed (r : ScanResult)
deriving DecidableEq, Repr

/-- The classification step at the end of `ClamdNetworkSocket.instream`. -/
def instreamClassify (recv : List Char) (raw : Bool) :
    Except ClamdExc InstreamResult :=
  if containsSubstr (s2l "INSTREAM size limit exceeded") recv then
    .error (.bufferTooLong (stripWs (rsplitBefore ERRORs recv)))
  else if raw then .ok (.raw recv)
  else
    match ScanResult.fromStr recv (s2l "INSTREAM") true with
    | .error e => .error e
    | .ok r => .ok (.parsed r)

/-- A `datetime.datetime` value as produced by `datetime.strptime`. -/
structure PyDatetime where
  year : Nat
  month : Nat
  day : Nat
  hour : Nat
  minute : Nat
  second : Nat
deriving DecidableEq, Repr

/-- The abbreviated weekday names of the C locale, matched by `%a`. -/
def WEEKDAYS : List (List Char) :=
  [s2l "Mon", s2l "Tue", s2l "Wed", s2l "Thu", s2l "Fri", s2l "Sat", s2l "Sun"]

/-- The abbreviated month names of the C locale, matched by `%b`. -/
def MONTHS : List (List Char) :=
  [s2l "Jan", s2l "Feb", s2l "Mar", s2l "Apr", s2l "May", s2l "Jun",
   s2l "Jul", s2l "Aug", s2l "Sep", s2l "Oct", s2l "Nov", s2l "Dec"]

/-- Case-insensitive equality of character lists (`strptime` compiles its
name alternations with `re.IGNORECASE`). -/
def lowerEq (a b : List Char) : Bool :=
  a.map Char.toLower == b.map Char.toLower

/-- Matches one of `names` case-insensitively as a prefix of `s`,
returning its 0-based index and the rest of `s`. -/
def findNameIdx : List (List Char) → Nat → List Char → Option (Nat × List Char)
  | [], _, _ => none
  | nm :: rest, i, s =>
    if lowerEq nm (s.take nm.length) then some (i, s.drop nm.length)
    else findNameIdx rest (i + 1) s

/-- Whitespace in a `strptime` format becomes the regex `\s+`: at least
one whitespace character, greedily consumed. -/
def skipWs1 : List Char → Option (List Char)
  | c :: rest => if isPySpace c then some (rest.dropWhile isPySpace) else none
  | [] => none

/-- The maximal leading run of ASCII digits and the remainder. -/
def takeDigits (s : List Char) : List Char × List Char :=
  (s.takeWhile Char.isDigit, s.dropWhile Char.isDigit)

/-- Numeric value of a digit list (most significant first). -/
def digitsToNat (l : List Char) : Nat :=
  l.foldl (fun a c => a * 10 + (c.toNat - 48)) 0

/-- Gregorian leap-year rule, as used by `datetime`. -/
def isLeap (y : Nat) : Bool :=
  y % 4 == 0 && (y % 100 != 0 || y % 400 == 0)

/-- Number of days in a month, as validated by the `datetime` constructor. -/
def daysInMonth (y m : Nat) : Nat :=
  if m = 2 then (if isLeap y then 29 else 28)
  else if m = 4 ∨ m = 6 ∨ m = 9 ∨ m = 11 then 30
  else 31

/-- A 1- or 2-digit numeric field (as the `%d`, `%H`, `%M`, `%S`
patterns accept, given that the following separator is never a digit). -/
def parseNum2 (s : List Char) : Option (Nat × List Char) :=
  match takeDigits s with
  | (ds, rest) =>
    if 1 ≤ ds.length ∧ ds.length ≤ 2 then some (digitsToNat ds, rest)
    else none

/-- The `%H:%M:%S` portion of the format: 1-2 digit fields separated by
literal colons, hour at most 23, minute at most 59 (the regex bound on
seconds is checked later together with the `datetime` validation). -/
def parseTimeHMS (s : List Char) : Option (Nat × Nat × Nat × List Char) :=
  match parseNum2 s with
  | none => none
  | some (hour, s1) =>
    if hour > 23 then none else
    match expectChar ':' s1 with
    | none => none
    | some s2 =>
      match parseNum2 s2 with
      | none => none
      | some (minute, s3) =>
        if minute > 59 then none else
        match expectChar ':' s3 with
        | none => none
        | some s4 =>
          match parseNum2 s4 with
          | none => none
          | some (second, s5) => some (hour, minute, second, s5)

/-- The `%a %b %d ` portion: weekday name, whitespace, month name,
whitespace, 1-2 digit day between 1 and 31, whitespace.  Returns the
0-based month index, the day and the rest. -/
def parseDatePart (s : List Char) : Option (Nat × Nat × List Char) :=
  match findNameIdx WEEKDAYS 0 s with
  | none => none
  | some (_, s1) =>
    match skipWs1 s1 with
    | none => none
    | some s2 =>
      match findNameIdx MONTHS 0 s2 with
      | none => none
      | some (mi, s3) =>
        match skipWs1 s3 with
        | none => none
        | some s4 =>
          match parseNum2 s4 with
          | none => none
          | some (day, s5) =>
            if day < 1 ∨ day > 31 then none else
            match skipWs1 s5 with
            | none => none
            | some s6 => some (mi, day, s6)

/-- Models `datetime.strptime(s, "%a %b %d %H:%M:%S %Y")` in the C locale:
weekday name, month name, 1-2 digit day, `HH:MM:SS` with 1-2 digit
fields, 4-digit year, whitespace runs between fields, the whole string
consumed, and the `datetime` constructor's range validation (the parsed
weekday is not cross-checked against the date).  `none` models the
`ValueError` Python raises. -/
def strptimeCtime (s : List Char) : Option PyDatetime :=
  match parseDatePart s with
  | none => none
  | some (mi, day, s6) =>
    match parseTimeHMS s6 with
    | none => none
    | some (hour, minute, second, s11) =>
      match skipWs1 s11 with
      | none => none
      | some s12 =>
        match takeDigits s12 with
        | (yy, s13) =>
          if yy.length ≠ 4 then none else
          if s13 ≠ [] then none else
          let year := digitsToNat yy
          if 1 ≤ year ∧ day ≤ daysInMonth year (mi + 1) ∧ second ≤ 59 then
            some ⟨year, mi + 1, day, hour, minute, second⟩
          else none

/-- Models Python `int(s)` on ASCII decimal literals: optional
surrounding whitespace, an optional sign, then a nonempty digit run.
Anything else raises `ValueError`, modelled as `none`. -/
def pyInt (s : List Char) : Option Int :=
  match stripWs s with
  | '+' :: ds =>
    if ds ≠ [] ∧ ds.all Char.isDigit then some (digitsToNat ds : Int) else none
  | '-' :: ds =>
    if ds ≠ [] ∧ ds.all Char.isDigit then some (-(digitsToNat ds : Int)) else none
  | ds =>
    if ds ≠ [] ∧ ds.all Char.isDigit then some (digitsToNat ds : Int) else none

/-- The `VersionInfo` named tuple of `models.py`. -/
structure VersionInfo where
  version : List Char
  signature : Int
  signature_date : PyDatetime
deriving DecidableEq, Repr

/-- Models `VersionInfo._from_str`: `string.split("/")`, then field 0 as
the version label, `int(field 1)` and `strptime(field 2, ...)`.  Missing
fields raise `IndexError` and bad fields raise `ValueError`; both are
modelled as `none`.  Fields beyond the third are ignored, as the code
only indexes `[0]`, `[1]`, `[2]`. -/
def VersionInfo.fromStr (string : List Char) : Option VersionInfo :=
  match splitOnChar '/' string with
  | v :: sig :: date :: _ =>
    match pyInt sig, strptimeCtime date with
    | some n, some dt => some ⟨v, n, dt⟩
    | _, _ => none
  | _ => none

/-- Models `struct.pack("!L", n)`: the 4-byte unsigned big-endian
encoding of `n`, each byte as a `Nat` (the Python call raises for
`n >= 2^32`; chunk lengths are bounded by the chunk size, far below). -/
def be32 (n : Nat) : List Nat :=
  [n / 2 ^ 24 % 256, n / 2 ^ 16 % 256, n / 2 ^ 8 % 256, n % 256]

/-- The successive chunks `buff.read(max_chunk_size)` yields in
`ClamdNetworkSocket.instream` when the byte source holds `data`: each
read returns the next at-most-`maxChunkSize` bytes, and the loop stops at
the first empty read.  Structured with a fuel argument so the kernel can
evaluate it; with a positive chunk size, `data.length` steps of fuel
always suffice. -/
def chunksGo (m : Nat) : Nat → List Nat → List (List Nat)
  | _, [] => []
  | 0, _ :: _ => []
  | fuel + 1, d :: ds => (d :: ds).take m :: chunksGo m fuel ((d :: ds).drop m)

/-- The chunk list `instream` sends: empty when `max_chunk_size` is 0
(Python's `read(0)` returns the empty bytes object at once, so the loop
body never runs), otherwise the successive `take`/`drop` pieces of the
source. -/
def instreamChunks (maxChunkSize : Nat) (data : List Nat) : List (List Nat) :=
  if maxChunkSize = 0 then [] else chunksGo maxChunkSize data.length data

/-- The bytes `instream` writes after the `INSTREAM` command frame: each
chunk preceded by `struct.pack("!L", len(chunk))`, and finally
`struct.pack("!L", 0)` once the source is exhausted. -/
def instreamPayload (maxChunkSize : Nat) (data : List Nat) : List Nat :=
  ((instreamChunks maxChunkSize data).map fun c => be32 c.length ++ c).flatten
    ++ be32 0

/-! ## Theorems -/

theorem utf8Bytes_nil : utf8Bytes [] = [] := rfl

theorem utf8Bytes_append (a b : List Char) :
    utf8Bytes (a ++ b) = utf8Bytes a ++ utf8Bytes b := by
  simp [utf8Bytes]

theorem utf8Bytes_cons (c : Char) (l : List Char) :
    utf8Bytes (c :: l) =
      (String.utf8EncodeChar c).map UInt8.toNat ++ utf8Bytes l := by
  simp [utf8Bytes]

theorem utf8_lineTerminatorChar (lt : LineTerminator) :
    (String.utf8EncodeChar (lineTerminatorChar lt)).map UInt8.toNat =
      [(lineTerminatorChar lt).toNat] := by
  cases lt <;> decide

theorem utf8_endline (lt : LineTerminator) :
    (String.utf8EncodeChar (endline lt)).map UInt8.toNat =
      [(endline lt).toNat] := by
  cases lt <;> decide

theorem utf8_space :
    (String.utf8EncodeChar ' ').map UInt8.toNat = [' '.toNat] := by
  decide

/-- C1 (amended): for every verb, argument list and terminator mode, the
bytes `_send` writes are the UTF-8 encoding of: the terminator-mode
letter (`'n'` or `'z'`), then the verb, then a space-separated argument
list when arguments are given, then the terminator character (newline or
NUL).  The leading byte is the mode letter, not the terminator. -/
theorem C1_frame_bytes (lt : LineTerminator) (command : List Char)
    (args : List (List Char)) :
    utf8Bytes (sendFrame lt command args) =
      (lineTerminatorChar lt).toNat ::
        (utf8Bytes command ++
          (if args = [] then [] else ' '.toNat :: utf8Bytes (joinSpace args)) ++
          [(endline lt).toNat]) := by
  cases args <;>
    simp [sendFrame, utf8Bytes_cons, utf8Bytes_append, utf8Bytes_nil,
      utf8_lineTerminatorChar, utf8_endline, utf8_space]

/-- C1 (counterexample): the claim says the frame starts with the
terminator character itself; but for mode `n` and verb `PING` the code
sends byte `0x6E` (`'n'`) first, not `0x0A` (`'\n'`), so the frame sent
differs from the `<term><VERB><term>` shape the claim describes. -/
theorem C1_counterexample :
    utf8Bytes (sendFrame .n (s2l "PING") []) = [110, 80, 73, 78, 71, 10] ∧
    utf8Bytes (specFrame .n (s2l "PING") []) = [10, 80, 73, 78, 71, 10] ∧
    utf8Bytes (sendFrame .n (s2l "PING") []) ≠
      utf8Bytes (specFrame .n (s2l "PING") []) := by
  decide

theorem dropWhile_eq_self_of {p : Char → Bool} :
    ∀ {l : List Char}, (∀ x ∈ l, p x = false) → l.dropWhile p = l
  | [], _ => rfl
  | a :: l, h => by simp [List.dropWhile_cons, h a (by simp)]

theorem mem_joinSpace (c : Char) :
    ∀ (args : List (List Char)), c ∈ joinSpace args →
      c = ' ' ∨ ∃ a ∈ args, c ∈ a
  | [], h => absurd h (List.not_mem_nil c)
  | [a], h => .inr ⟨a, by simp, by simpa [joinSpace] using h⟩
  | a :: b :: rest, h => by
    simp only [joinSpace, List.mem_append, List.mem_cons] at h
    rcases h with h | h | h
    · exact .inr ⟨a, by simp, h⟩
    · exact .inl h
    · rcases mem_joinSpace c (b :: rest) h with h' | ⟨x, hx, hcx⟩
      · exact .inl h'
      · exact .inr ⟨x, List.mem_cons_of_mem a hx, hcx⟩

/-- Stripping a character that the first element is not and that the
middle never contains removes exactly the final sentinel character. -/
theorem stripChar_sandwich (c first : Char) (body : List Char)
    (h1 : (first == c) = false) (h2 : ∀ x ∈ body, (x == c) = false) :
    stripChar c (first :: (body ++ [c])) = first :: body := by
  have hd2 : List.dropWhile (fun x => x == c) (body.reverse ++ [first])
      = body.reverse ++ [first] := by
    apply dropWhile_eq_self_of
    intro x hx
    rcases List.mem_append.mp hx with hx | hx
    · exact h2 x (List.mem_reverse.mp hx)
    · simp only [List.mem_singleton] at hx
      exact hx ▸ h1
  unfold stripChar stripWhile
  rw [List.dropWhile_cons, if_neg (by simp [h1])]
  have hrev : (first :: (body ++ [c])).reverse
      = c :: (body.reverse ++ [first]) := by simp
  rw [hrev, List.dropWhile_cons, if_pos (by simp), hd2]
  simp

/-- C2 (amended): serializing a frame and stripping the configured
terminator character from both ends (as `_recv` strips replies) yields
the terminator-mode letter followed by the verb and the space-joined
arguments — not the verb alone, because the mode letter the frame starts
with is never a terminator character and survives the strip.  The
hypotheses say the verb and arguments contain no terminator character
(otherwise the both-end strip would also eat trailing terminator
characters of the last argument). -/
theorem C2_strip_roundtrip (lt : LineTerminator) (command : List Char)
    (args : List (List Char))
    (hc : endline lt ∉ command)
    (ha : ∀ a ∈ args, endline lt ∉ a) :
    stripChar (endline lt) (sendFrame lt command args) =
      lineTerminatorChar lt ::
        (command ++ (if args = [] then [] else ' ' :: joinSpace args)) := by
  have happ : sendFrame lt command args
      = lineTerminatorChar lt ::
        ((command ++ (if args = [] then [] else ' ' :: joinSpace args)) ++
          [endline lt]) := by
    simp [sendFrame]
  rw [happ]
  apply stripChar_sandwich
  · cases lt <;> decide
  · intro x hx
    rcases List.mem_append.mp hx with hx | hx
    · exact beq_eq_false_iff_ne.mpr fun e => hc (e ▸ hx)
    · cases args with
      | nil => simp at hx
      | cons a rest =>
        rw [if_neg (by simp)] at hx
        rcases List.mem_cons.mp hx with rfl | hx
        · cases lt <;> decide
        · rcases mem_joinSpace x (a :: rest) hx with rfl | ⟨y, hy, hxy⟩
          · cases lt <;> decide
          · exact beq_eq_false_iff_ne.mpr fun e => ha y hy (e ▸ hxy)

/-- C2 (counterexample): for mode `n` and verb `PING` with no arguments,
serializing and then stripping the newline terminator yields `"nPING"`,
not the original verb `"PING"`: the round trip of the claim fails. -/
theorem C2_counterexample :
    stripChar (endline .n) (sendFrame .n (s2l "PING") []) = s2l "nPING" ∧
    stripChar (endline .n) (sendFrame .n (s2l "PING") []) ≠ s2l "PING" := by
  decide

/-- Witness for `C2_strip_roundtrip` at mode `z`, verb `SCAN`, one
argument `/tmp/f`. -/
theorem C2_strip_roundtrip_witness :
    (endline .z ∉ s2l "SCAN" ∧ ∀ a ∈ [s2l "/tmp/f"], endline .z ∉ a) ∧
    stripChar (endline .z) (sendFrame .z (s2l "SCAN") [s2l "/tmp/f"]) =
      lineTerminatorChar .z ::
        (s2l "SCAN" ++
          (if ([s2l "/tmp/f"] : List (List Char)) = [] then []
           else ' ' :: joinSpace [s2l "/tmp/f"])) :=
  ⟨⟨by decide, by decide⟩,
    C2_strip_roundtrip .z (s2l "SCAN") [s2l "/tmp/f"] (by decide) (by decide)⟩

/-- C3 (amended): every command dispatched through `_command` (`ping`,
`reload`, `version`, `stats`, `scan`, `contscan`, `multiscan`) turns the
exact reply `"UNKNOWN COMMAND"` into `UnknownCommand` and the exact reply
`"COMMAND READ TIMED OUT"` into `CommandReadTimedOut`, both carrying the
verb sent, for either `raise_on_error` setting; `instream`, however,
performs no sentinel check: it returns such a reply verbatim when `raw`
and otherwise fails scan-line parsing with `ResponseError`. -/
theorem C3_sentinels (command : List Char) (roe raw : Bool) :
    commandClassify command UNKNOWN_COMMAND roe
      = .error (.unknownCommand command) ∧
    commandClassify command COMMAND_READ_TIMED_OUT roe
      = .error (.commandReadTimedOut command) ∧
    instreamClassify UNKNOWN_COMMAND raw =
      (if raw then .ok (.raw UNKNOWN_COMMAND)
       else .error (.responseError (s2l "INSTREAM")
         (s2l "Unable to match string: UNKNOWN COMMAND"))) ∧
    instreamClassify COMMAND_READ_TIMED_OUT raw =
      (if raw then .ok (.raw COMMAND_READ_TIMED_OUT)
       else .error (.responseError (s2l "INSTREAM")
         (s2l "Unable to match string: COMMAND READ TIMED OUT"))) := by
  refine ⟨?_, ?_, ?_, ?_⟩
  · simp [commandClassify]
  · have h : COMMAND_READ_TIMED_OUT ≠ UNKNOWN_COMMAND := by decide
    simp [commandClassify, h]
  · cases raw <;> decide
  · cases raw <;> decide

/-- C3 (counterexample): the claim includes `instream`, but a streamed
upload whose reply is exactly `"UNKNOWN COMMAND"` does not fail with
`UnknownCommand`: with `raw=True` the string is returned verbatim, and
with `raw=False` parsing fails with `ResponseError`, because `instream`
reads the reply itself and never runs the sentinel checks. -/
theorem C3_counterexample :
    instreamClassify (s2l "UNKNOWN COMMAND") true
      = .ok (.raw (s2l "UNKNOWN COMMAND")) ∧
    instreamClassify (s2l "UNKNOWN COMMAND") true
      ≠ .error (.unknownCommand (s2l "INSTREAM")) ∧
    instreamClassify (s2l "UNKNOWN COMMAND") false
      = .error (.responseError (s2l "INSTREAM")
          (s2l "Unable to match string: UNKNOWN COMMAND")) := by
  decide

/-- C4: when `raise_on_error` is set and the reply (which then cannot be
one of the two sentinel strings, as neither contains `"ERROR"`) splits on
the last occurrence of the literal `"ERROR"` into more than one segment,
`_command` raises `ResponseError` carrying the command and the
whitespace-trimmed text preceding that final occurrence; concretely,
reply `"Reason ERROR"` with `raise_on_error=True` gives
`ResponseError(command, "Reason")` and with `raise_on_error=False` is
returned verbatim. -/
theorem C4_error_split (command recv : List Char) (i : Nat)
    (h : lastSplitIndex ERRORs recv = some i) :
    commandClassify command recv true
      = .error (.responseError command (stripWs (recv.take i))) ∧
    commandClassify command (s2l "Reason ERROR") true
      = .error (.responseError command (s2l "Reason")) ∧
    commandClassify command (s2l "Reason ERROR") false
      = .ok (s2l "Reason ERROR") := by
  have h1 : recv ≠ UNKNOWN_COMMAND := by
    intro e
    rw [e, show lastSplitIndex ERRORs UNKNOWN_COMMAND = none from by decide] at h
    exact Option.noConfusion h
  have h2 : recv ≠ COMMAND_READ_TIMED_OUT := by
    intro e
    rw [e, show lastSplitIndex ERRORs COMMAND_READ_TIMED_OUT = none from by decide] at h
    exact Option.noConfusion h
  have hne1 : s2l "Reason ERROR" ≠ UNKNOWN_COMMAND := by decide
  have hne2 : s2l "Reason ERROR" ≠ COMMAND_READ_TIMED_OUT := by decide
  have hidx : lastSplitIndex ERRORs (s2l "Reason ERROR") = some 7 := by decide
  have hstrip : stripWs ((s2l "Reason ERROR").take 7) = s2l "Reason" := by decide
  refine ⟨?_, ?_, ?_⟩
  · simp [commandClassify, h1, h2, h]
  · simp [commandClassify, hne1, hne2, hidx, hstrip]
  · simp [commandClassify, hne1, hne2]

/-- Witness for `C4_error_split` at reply `"Reason ERROR"` (last `"ERROR"`
occurrence at index 7) and command `PING`. -/
theorem C4_error_split_witness :
    lastSplitIndex ERRORs (s2l "Reason ERROR") = some 7 ∧
    (commandClassify (s2l "PING") (s2l "Reason ERROR") true
        = .error (.responseError (s2l "PING")
            (stripWs ((s2l "Reason ERROR").take 7))) ∧
      commandClassify (s2l "PING") (s2l "Reason ERROR") true
        = .error (.responseError (s2l "PING") (s2l "Reason")) ∧
      commandClassify (s2l "PING") (s2l "Reason ERROR") false
        = .ok (s2l "Reason ERROR")) :=
  ⟨by decide, C4_error_split (s2l "PING") (s2l "Reason ERROR") 7 (by decide)⟩

theorem parseLines_first_fail (command : List Char) :
    ∀ (lines : List (List Char)) (bad : List Char),
      lines.find? (fun l => (resultRegexMatch l).isNone) = some bad →
      parseLines command lines
        = .error (.responseError command
            (s2l "Unable to match string: " ++ bad))
  | [], _, h => by simp at h
  | l :: rest, bad, h => by
    cases hm : resultRegexMatch l with
    | none =>
      simp only [List.find?_cons, hm, Option.isNone_none, Option.some.injEq] at h
      subst h
      simp [parseLines, ScanResult.fromStr, hm]
    | some val =>
      simp only [List.find?_cons, hm, Option.isNone_some] at h
      have ih := parseLines_first_fail command rest bad h
      simp [parseLines, ScanResult.fromStr, hm, ih]

/-- C5: if any line of a multiline scan reply fails to match
`RESULT_REGEX`, the whole parse fails with the error carrying the command
and `"Unable to match string: "` followed by the first offending line —
parsing proceeds line by line, aborts at that line, and no partial list
of scan results is ever produced. -/
theorem C5_abort_on_first_bad_line (lt : LineTerminator)
    (result command bad : List Char)
    (h : (splitOnChar (endline lt) result).find?
          (fun l => (resultRegexMatch l).isNone) = some bad) :
    anyScanParse lt result command
      = .error (.responseError command
          (s2l "Unable to match string: " ++ bad)) :=
  parseLines_first_fail command _ bad h

/-- Witness for `C5_abort_on_first_bad_line`: the middle line `garbage`
of a three-line reply is the first that fails, and the whole call fails
with its message even though the surrounding lines parse. -/
theorem C5_abort_on_first_bad_line_witness :
    (splitOnChar (endline .n) (s2l "/f: OK\ngarbage\n/g: OK")).find?
        (fun l => (resultRegexMatch l).isNone) = some (s2l "garbage") ∧
    anyScanParse .n (s2l "/f: OK\ngarbage\n/g: OK") (s2l "SCAN")
      = .error (.responseError (s2l "SCAN")
          (s2l "Unable to match string: " ++ s2l "garbage")) :=
  ⟨by decide,
    C5_abort_on_first_bad_line .n (s2l "/f: OK\ngarbage\n/g: OK")
      (s2l "SCAN") (s2l "garbage") (by decide)⟩

theorem splitFirst_not_mem (c : Char) :
    ∀ (s a b : List Char), splitFirst c s = some (a, b) → c ∉ a
  | [], _, _, h => by simp [splitFirst] at h
  | x :: xs, a, b, h => by
    by_cases hx : x = c
    · simp only [splitFirst, if_pos hx, Option.some.injEq, Prod.mk.injEq] at h
      rw [← h.1]
      exact List.not_mem_nil c
    · simp only [splitFirst, if_neg hx] at h
      cases hs : splitFirst c xs with
      | none => rw [hs] at h; simp at h
      | some p =>
        rw [hs] at h
        simp only [Option.map_some', Option.some.injEq, Prod.mk.injEq] at h
        rw [← h.1]
        intro hmem
        rcases List.mem_cons.mp hmem with h' | h'
        · exact hx h'.symm
        · exact splitFirst_not_mem c xs p.1 p.2 hs h'

theorem resultRegexMatch_path (s path : List Char)
    (reason : Option (List Char)) (status : List Char)
    (h : resultRegexMatch s = some (path, reason, status)) :
    ∃ rest, splitFirst ':' s = some (path, rest) := by
  unfold resultRegexMatch at h
  cases hsp : splitFirst ':' s with
  | none => rw [hsp] at h; simp at h
  | some pr =>
    obtain ⟨a, rest⟩ := pr
    rw [hsp] at h
    simp only [] at h
    cases he : expectChar ' ' rest with
    | none => rw [he] at h; simp at h
    | some t =>
      rw [he] at h
      simp only [] at h
      cases hf : findReasonSplit t with
      | some rs =>
        obtain ⟨r, st⟩ := rs
        rw [hf] at h
        simp only [Option.some.injEq, Prod.mk.injEq] at h
        exact ⟨rest, by rw [h.1]⟩
      | none =>
        rw [hf] at h
        cases hst : statusTailMatch t with
        | none => rw [hst] at h; simp at h
        | some st =>
          rw [hst] at h
          simp only [Option.map_some', Option.some.injEq, Prod.mk.injEq] at h
          exact ⟨rest, by rw [h.1]⟩

/-- C6: every successful `RESULT_REGEX` match takes the first colon of
the line as the path separator, so the captured path group never contains
a colon; consequently a line whose intended path component contains a
literal colon can never produce a scan result whose path equals that
component. -/
theorem C6_colon_free_path (s path comp : List Char)
    (reason : Option (List Char)) (status : List Char)
    (h : resultRegexMatch s = some (path, reason, status))
    (hc : ':' ∈ comp) :
    ':' ∉ path ∧ path ≠ comp := by
  obtain ⟨rest, hsp⟩ := resultRegexMatch_path s path reason status h
  have hnp := splitFirst_not_mem ':' s path rest hsp
  exact ⟨hnp, fun e => hnp (e ▸ hc)⟩

/-- Witness for `C6_colon_free_path`: the line `dir: OK` parses with path
`dir`, which is colon-free and in particular differs from the
colon-containing component `a:b`. -/
theorem C6_colon_free_path_witness :
    resultRegexMatch (s2l "dir: OK") = some (s2l "dir", none, s2l "OK") ∧
    ':' ∈ s2l "a:b" ∧
    (':' ∉ s2l "dir" ∧ s2l "dir" ≠ s2l "a:b") :=
  ⟨by decide, by decide,
    C6_colon_free_path (s2l "dir: OK") (s2l "dir") (s2l "a:b") none
      (s2l "OK") (by decide) (by decide)⟩

theorem splitOnChar_not_mem (c : Char) :
    ∀ (l : List Char), c ∉ l → splitOnChar c l = [l]
  | [], _ => rfl
  | x :: xs, h => by
    have hx : ¬ x = c := fun e => h (e ▸ List.mem_cons_self x xs)
    have ih := splitOnChar_not_mem c xs fun hm => h (List.mem_cons_of_mem x hm)
    simp only [splitOnChar, if_neg hx, ih]

theorem splitOnChar_append (c : Char) :
    ∀ (v rest : List Char), c ∉ v →
      splitOnChar c (v ++ c :: rest) = v :: splitOnChar c rest
  | [], rest, _ => by simp [splitOnChar]
  | x :: xs, rest, h => by
    have hx : ¬ x = c := fun e => h (e ▸ List.mem_cons_self x xs)
    have ih := splitOnChar_append c xs rest fun hm => h (List.mem_cons_of_mem x hm)
    simp only [List.cons_append, splitOnChar, if_neg hx, List.append_eq, ih]

theorem splitOnChar_three (c : Char) (v sig date : List Char)
    (hv : c ∉ v) (hs : c ∉ sig) (hd : c ∉ date) :
    splitOnChar c (v ++ c :: (sig ++ c :: date)) = [v, sig, date] := by
  rw [splitOnChar_append c v _ hv, splitOnChar_append c sig date hs,
    splitOnChar_not_mem c date hd]

/-- C7: a version reply of the form `<label>/<count>/<date>` is split on
`/` into its three fields: the result is the version label verbatim, the
count parsed by `int` (a non-numeric count, e.g. `abc`, makes the whole
parse fail), and the date parsed against the fixed
`%a %b %d %H:%M:%S %Y` format; in particular
`"ClamAV 0.103.9/27065/Wed Oct 18 09:49:14 2023"` yields version
`ClamAV 0.103.9`, signature 27065 and date 2023-10-18 09:49:14. -/
theorem C7_version_parsing (v sig date : List Char)
    (hv : '/' ∉ v) (hs : '/' ∉ sig) (hd : '/' ∉ date) :
    (VersionInfo.fromStr (v ++ '/' :: (sig ++ '/' :: date)) =
      match pyInt sig, strptimeCtime date with
      | some n, some dt => some ⟨v, n, dt⟩
      | _, _ => none) ∧
    VersionInfo.fromStr (s2l "ClamAV 0.103.9/27065/Wed Oct 18 09:49:14 2023")
      = some ⟨s2l "ClamAV 0.103.9", 27065, ⟨2023, 10, 18, 9, 49, 14⟩⟩ ∧
    VersionInfo.fromStr (s2l "ClamAV 0.103.9/abc/Wed Oct 18 09:49:14 2023")
      = none := by
  refine ⟨?_, by decide, by decide⟩
  unfold VersionInfo.fromStr
  rw [splitOnChar_three '/' v sig date hv hs hd]

/-- Witness for `C7_version_parsing` at the spec's example fields. -/
theorem C7_version_parsing_witness :
    ('/' ∉ s2l "ClamAV 0.103.9" ∧ '/' ∉ s2l "27065" ∧
      '/' ∉ s2l "Wed Oct 18 09:49:14 2023") ∧
    ((VersionInfo.fromStr
        (s2l "ClamAV 0.103.9" ++ '/' ::
          (s2l "27065" ++ '/' :: s2l "Wed Oct 18 09:49:14 2023")) =
      match pyInt (s2l "27065"),
        strptimeCtime (s2l "Wed Oct 18 09:49:14 2023") with
      | some n, some dt => some ⟨s2l "ClamAV 0.103.9", n, dt⟩
      | _, _ => none) ∧
    VersionInfo.fromStr (s2l "ClamAV 0.103.9/27065/Wed Oct 18 09:49:14 2023")
      = some ⟨s2l "ClamAV 0.103.9", 27065, ⟨2023, 10, 18, 9, 49, 14⟩⟩ ∧
    VersionInfo.fromStr (s2l "ClamAV 0.103.9/abc/Wed Oct 18 09:49:14 2023")
      = none) :=
  ⟨⟨by decide, by decide, by decide⟩,
    C7_version_parsing (s2l "ClamAV 0.103.9") (s2l "27065")
      (s2l "Wed Oct 18 09:49:14 2023") (by decide) (by decide) (by decide)⟩

theorem chunksGo_flatten (m : Nat) (hm : 0 < m) :
    ∀ (fuel : Nat) (data : List Nat), data.length ≤ fuel →
      (chunksGo m fuel data).flatten = data
  | fuel, [], _ => by cases fuel <;> simp [chunksGo]
  | 0, d :: ds, h => by simp at h
  | fuel + 1, d :: ds, h => by
    have hlen : ((d :: ds).drop m).length ≤ fuel := by
      simp only [List.length_drop, List.length_cons]
      simp only [List.length_cons] at h
      omega
    simp only [chunksGo, List.flatten_cons,
      chunksGo_flatten m hm fuel ((d :: ds).drop m) hlen]
    exact List.take_append_drop m (d :: ds)

theorem chunksGo_mem (m : Nat) (hm : 0 < m) :
    ∀ (fuel : Nat) (data : List Nat), ∀ c ∈ chunksGo m fuel data,
      c ≠ [] ∧ c.length ≤ m
  | fuel, [], c, hc => by cases fuel <;> simp [chunksGo] at hc
  | 0, d :: ds, c, hc => by simp [chunksGo] at hc
  | fuel + 1, d :: ds, c, hc => by
    simp only [chunksGo, List.mem_cons] at hc
    rcases hc with rfl | hc
    · obtain ⟨k, rfl⟩ := Nat.exists_eq_succ_of_ne_zero (Nat.pos_iff_ne_zero.mp hm)
      refine ⟨by simp [List.take_succ_cons], ?_⟩
      rw [List.length_take]
      exact min_le_left _ _
    · exact chunksGo_mem m hm fuel _ c hc

/-- C8: for a byte source holding `data` and a positive maximum chunk
size, the bytes `instream` writes after the `INSTREAM` frame are exactly
the successive reads of at most `maxChunkSize` bytes — the chunks are
nonempty, at most `maxChunkSize` long and concatenate back to `data` —
each preceded by its length as a 4-byte unsigned big-endian integer, and
the stream ends with the zero-length prefix `[0, 0, 0, 0]`; `be32` is a
correct 4-byte big-endian encoding for every length below `2^32`. -/
theorem C8_instream_payload (m : Nat) (data : List Nat) (hm : 0 < m) :
    (instreamChunks m data).flatten = data ∧
    (∀ c ∈ instreamChunks m data, c ≠ [] ∧ c.length ≤ m) ∧
    instreamPayload m data =
      ((instreamChunks m data).map fun c => be32 c.length ++ c).flatten
        ++ be32 0 ∧
    be32 0 = [0, 0, 0, 0] ∧
    (∀ n : Nat, n < 2 ^ 32 →
      (be32 n).length = 4 ∧ (∀ b ∈ be32 n, b < 256) ∧
        (be32 n).foldl (fun acc b => acc * 256 + b) 0 = n) := by
  refine ⟨?_, ?_, rfl, rfl, ?_⟩
  · unfold instreamChunks
    rw [if_neg (Nat.pos_iff_ne_zero.mp hm)]
    exact chunksGo_flatten m hm data.length data le_rfl
  · intro c hc
    unfold instreamChunks at hc
    rw [if_neg (Nat.pos_iff_ne_zero.mp hm)] at hc
    exact chunksGo_mem m hm data.length data c hc
  · intro n hn
    refine ⟨rfl, ?_, ?_⟩
    · intro b hb
      simp only [be32, List.mem_cons, List.mem_singleton, List.not_mem_nil,
        or_false] at hb
      rcases hb with rfl | rfl | rfl | rfl <;>
        exact Nat.mod_lt _ (by norm_num)
    · simp only [be32, List.foldl]
      have h24 : (2 : Nat) ^ 24 = 16777216 := by norm_num
      have h16 : (2 : Nat) ^ 16 = 65536 := by norm_num
      have h8 : (2 : Nat) ^ 8 = 256 := by norm_num
      have h32 : (2 : Nat) ^ 32 = 4294967296 := by norm_num
      rw [h24, h16, h8] at *
      rw [h32] at hn
      omega

/-- Witness for `C8_instream_payload` at chunk size 2 and a three-byte
source (two full chunks would not cover it, so a final short chunk is
produced). -/
theorem C8_instream_payload_witness :
    0 < 2 ∧
    ((instreamChunks 2 [1, 2, 3]).flatten = [1, 2, 3] ∧
      (∀ c ∈ instreamChunks 2 [1, 2, 3], c ≠ [] ∧ c.length ≤ 2) ∧
      instreamPayload 2 [1, 2, 3] =
        ((instreamChunks 2 [1, 2, 3]).map fun c => be32 c.length ++ c).flatten
          ++ be32 0 ∧
      be32 0 = [0, 0, 0, 0] ∧
      (∀ n : Nat, n < 2 ^ 32 →
        (be32 n).length = 4 ∧ (∀ b ∈ be32 n, b < 256) ∧
          (be32 n).foldl (fun acc b => acc * 256 + b) 0 = n)) :=
  ⟨by decide, C8_instream_payload 2 [1, 2, 3] (by decide)⟩

/-- C9: whenever the decoded reply of a streamed upload contains the
substring `"INSTREAM size limit exceeded"`, `instream` fails with
`BufferTooLong` carrying the whitespace-trimmed text before the last
`"ERROR"` occurrence, regardless of the `raw` flag; in particular the
reply `"INSTREAM size limit exceeded ERROR"` gives `BufferTooLong` with
message `"INSTREAM size limit exceeded"`. -/
theorem C9_buffer_too_long (recv : List Char) (raw : Bool)
    (h : containsSubstr (s2l "INSTREAM size limit exceeded") recv = true) :
    instreamClassify recv raw
      = .error (.bufferTooLong (stripWs (rsplitBefore ERRORs recv))) ∧
    instreamClassify (s2l "INSTREAM size limit exceeded ERROR") raw
      = .error (.bufferTooLong (s2l "INSTREAM size limit exceeded")) := by
  constructor
  · unfold instreamClassify
    rw [if_pos h]
  · cases raw <;> decide

/-- Witness for `C9_buffer_too_long` at the spec's example reply with
`raw=True`. -/
theorem C9_buffer_too_long_witness :
    containsSubstr (s2l "INSTREAM size limit exceeded")
        (s2l "INSTREAM size limit exceeded ERROR") = true ∧
    (instreamClassify (s2l "INSTREAM size limit exceeded ERROR") true
        = .error (.bufferTooLong
            (stripWs (rsplitBefore ERRORs
              (s2l "INSTREAM size limit exceeded ERROR")))) ∧
      instreamClassify (s2l "INSTREAM size limit exceeded ERROR") true
        = .error (.bufferTooLong (s2l "INSTREAM size limit exceeded"))) :=
  ⟨by decide,
    C9_buffer_too_long (s2l "INSTREAM size limit exceeded ERROR") true
      (by decide)⟩

/-- C10 (code bug): the docstring of `ScanResult.reason` in `models.py`
promises `reason` is always `None` when the status is `OK`, but
`RESULT_REGEX` also accepts a reason group in front of `OK`: the reply
line `"path: foo OK"` parses successfully into a result with status `OK`
and reason `"foo"`, contradicting the documented invariant, while the
well-formed daemon line `"path: OK"` parses with reason `None` as
documented. -/
theorem C10_ok_reason_bug :
    ScanResult.fromStr (s2l "path: foo OK") (s2l "SCAN") false
      = .ok ⟨.path (s2l "path"), some (s2l "foo"), s2l "OK"⟩ ∧
    ScanResult.fromStr (s2l "path: OK") (s2l "SCAN") false
      = .ok ⟨.path (s2l "path"), none, s2l "OK"⟩ := by
  decide
